import Mathlib

/-!
Verification of the giftimize batch image-conversion scripts.

The repository holds three near-duplicate Node.js scripts:
  * a sequential GIF optimizer (first script of src/unnamed/part_000);
  * a parallel GIF optimizer with a size-comparison fallback policy
    (second script of src/unnamed/part_000, called the "parallel variant"
    below), which limits concurrency with pLimit(4);
  * a sequential GIF optimizer variant with size display (src/index.js);
  * a parallel JPG/PNG to WebP converter (src/convert-to-webp.js).

File contents are modelled as lists of byte values; a file's size is the
length of that list.  Exit codes of the external gifsicle process are
integers.  The spawned process's observable result at the `close` event is
the pair (produced output file, exit code): `produced = none` models
"the output path does not exist on disk" and `produced = some b` models
"the output path holds bytes b".
-/

namespace Giftimize

/-- Outcome of one GIF optimization task, following the spec's
`ConversionOutcome` vocabulary: `succeeded` when the optimized file is
kept, `succeededViaFallback` when the original was copied over the
destination, `failed` when the promise rejects with the tool's exit code. -/
inductive Outcome where
  | succeeded (originalSize finalSize : Nat)
  | succeededViaFallback (originalSize : Nat)
  | failed (code : Int)
deriving DecidableEq

/-- The expression `fs.existsSync(outputPath) ? fs.statSync(outputPath).size
: originalSize` shared by the progress timer and the close handler: the
destination's current size when it exists, the original size otherwise. -/
def observedOptimizedSize (src : List Nat) (produced : Option (List Nat)) : Nat :=
  match produced with
  | some b => b.length
  | none => src.length

/-- Close handler of `optimizeGIF` in the parallel variant
(src/unnamed/part_000, second script, lines 231-257).  It first compares
sizes: when `optimizedSize >= originalSize` it copies the original bytes
over the destination with `fs.copyFileSync` and resolves (fallback), and
only otherwise does it look at the exit code.  The second component of the
result is the destination file's final content as left by this handler. -/
def optimizeGIF_close (src : List Nat) (produced : Option (List Nat)) (code : Int) :
    Outcome × Option (List Nat) :=
  let originalSize := src.length
  let optimizedSize := observedOptimizedSize src produced
  if originalSize ≤ optimizedSize then
    (Outcome.succeededViaFallback originalSize, some src)
  else if code = 0 then
    (Outcome.succeeded originalSize optimizedSize, produced)
  else
    (Outcome.failed code, produced)

/-- Close handler of `optimizeGIF` in src/index.js (lines 90-111): no
fallback policy, the exit code alone decides between resolve and reject. -/
def optimizeGIF_close_seq (src : List Nat) (produced : Option (List Nat)) (code : Int) :
    Outcome × Option (List Nat) :=
  let originalSize := src.length
  let optimizedSize := observedOptimizedSize src produced
  if code = 0 then
    (Outcome.succeeded originalSize optimizedSize, produced)
  else
    (Outcome.failed code, produced)

/-- What the environment (source file on disk, gifsicle's behaviour on it)
supplies to one optimization task. -/
structure TaskEnv where
  sourceBytes : List Nat
  produced : Option (List Nat)
  exitCode : Int

/-- One task's recorded outcome in the parallel variant, as a function of
that task's own inputs only. -/
def taskOutcome (env : List Char → TaskEnv) (f : List Char) : Outcome :=
  (optimizeGIF_close (env f).sourceBytes (env f).produced (env f).exitCode).1

/-- C1: on the optimizer path, whenever the produced file's size is at
least the original's, the close handler discards the produced file, copies
the original bytes verbatim to the destination, and records the outcome as
SucceededViaFallback. -/
theorem c1_fallback_copies_original (src b : List Nat) (code : Int)
    (h : src.length ≤ b.length) :
    optimizeGIF_close src (some b) code =
      (Outcome.succeededViaFallback src.length, some src) := by
  simp [optimizeGIF_close, observedOptimizedSize, h]

/-- Witness for C1 at a concrete input: a 1-byte source whose "optimized"
output has 2 bytes falls back to a verbatim copy of the source. -/
theorem c1_fallback_copies_original_w :
    optimizeGIF_close [7] (some [1, 2]) 0 =
      (Outcome.succeededViaFallback 1, some [7]) :=
  c1_fallback_copies_original [7] [1, 2] 0 (by decide)

/-- C2 counterexample: a task whose gifsicle process exits with code 1 and
leaves no output file is recorded as SucceededViaFallback by the parallel
variant, not as Failed: the close handler compares sizes before it looks at
the exit code, and a missing output file is observed at the original size. -/
theorem c2_nonzero_exit_not_failed_cex :
    (optimizeGIF_close [0, 0] none 1).1 = Outcome.succeededViaFallback 2 ∧
      (optimizeGIF_close [0, 0] none 1).1 ≠ Outcome.failed 1 := by
  constructor
  · rfl
  · decide

/-- C2 as amended: in the sequential variant a nonzero-exit task is always
recorded as Failed; in the parallel variant a nonzero-exit task is recorded
as Failed exactly when the observed produced size is smaller than the
original (otherwise the size comparison fires first and the task is
recorded as SucceededViaFallback).  Each task's outcome is a function of
its own inputs alone, so no other task's outcome is affected. -/
theorem c2_nonzero_exit_amended :
    ∀ (src : List Nat) (produced : Option (List Nat)) (code : Int), code ≠ 0 →
      ((optimizeGIF_close src produced code).1 = Outcome.failed code ↔
        observedOptimizedSize src produced < src.length) ∧
      (optimizeGIF_close_seq src produced code).1 = Outcome.failed code := by
  intro src produced code hc
  constructor
  · constructor
    · intro h
      by_contra hlt
      push_neg at hlt
      simp [optimizeGIF_close, hlt] at h
    · intro hlt
      have hnot : ¬ src.length ≤ observedOptimizedSize src produced := not_le.mpr hlt
      simp [optimizeGIF_close, hnot, hc]
  · simp [optimizeGIF_close_seq, hc]

/-- Witness for the amended C2 at a concrete input: exit code 1 with an
empty produced file against a 1-byte source. -/
theorem c2_nonzero_exit_amended_w :
    ((optimizeGIF_close [5] (some []) 1).1 = Outcome.failed 1 ↔
      observedOptimizedSize [5] (some []) < ([5] : List Nat).length) ∧
    (optimizeGIF_close_seq [5] (some []) 1).1 = Outcome.failed 1 :=
  c2_nonzero_exit_amended [5] (some []) 1 (by decide)

/-! ## File names, extensions and destination paths

Directory entries are plain base names (Node's `readdirSync` yields no
directory separators), modelled as lists of characters. -/

/-- Node's `path.extname` on a base name: the suffix from the last dot,
the empty string when there is no dot or when the only candidate dot is
the name's first character (`.gif` has no extension, `a.gif` has `.gif`,
`a.b.c` has `.c`, `a.` has `.`). -/
def extname (cs : List Char) : List Char :=
  let rev := cs.reverse
  let fromDot := rev.dropWhile (fun c => c ≠ '.')
  match fromDot with
  | [] => []
  | [_] => []
  | _ :: _ :: _ => '.' :: (rev.takeWhile (fun c => c ≠ '.')).reverse

/-- JavaScript's `toLowerCase` restricted to the characters that occur in
file extensions. -/
def lowerStr (cs : List Char) : List Char := cs.map Char.toLower

/-- The GIF discovery filter `path.extname(file).toLowerCase() === ".gif"`
(src/index.js line 121, src/unnamed/part_000 lines 92 and 272). -/
def isGifFile (file : List Char) : Bool :=
  lowerStr (extname file) == ".gif".toList

/-- The raster discovery filter of src/convert-to-webp.js line 112,
`/\.(jpg|jpeg|png)$/i.test(path.extname(file))`.  An extname contains at
most one dot and it is its first character, so the anchored alternation
matches exactly when the whole extname is one of `.jpg`, `.jpeg`, `.png`
up to case. -/
def isRasterFile (file : List Char) : Bool :=
  let e := lowerStr (extname file)
  e == ".jpg".toList || e == ".jpeg".toList || e == ".png".toList

/-- The gif scripts' discovery step: `files.filter(... === ".gif")`. -/
def gifFilter (files : List (List Char)) : List (List Char) :=
  files.filter isGifFile

/-- The webp script's discovery step. -/
def rasterFilter (files : List (List Char)) : List (List Char) :=
  files.filter isRasterFile

/-- `path.basename(file, path.extname(file))` for a plain base name:
the name with its extension suffix removed. -/
def stripExt (file : List Char) : List Char :=
  file.take (file.length - (extname file).length)

/-- Destination base name on the optimizer path:
`path.join(outputDir, file)` keeps the source's base name. -/
def gifDest (file : List Char) : List Char := file

/-- Destination base name on the raster path (src/convert-to-webp.js
lines 129-132): the extension-stripped base name with `.webp` appended. -/
def webpDest (file : List Char) : List Char := stripExt file ++ ".webp".toList

/-! ## The webp conversion task and the two batch drivers -/

/-- Outcome of one webp conversion task: `sharp(...).webp().toFile(...)`
either produces the destination file or throws, and the catch block only
logs, so the task's promise always resolves. -/
inductive WebpOutcome where
  | succeeded (originalSize finalSize : Nat)
  | encodingFailed (msg : List Char)
deriving DecidableEq

/-- What the environment supplies to one webp task: the source bytes and
the sharp library's result (produced bytes, or the thrown error message). -/
structure WebpEnv where
  sourceBytes : List Nat
  sharpResult : Except (List Char) (List Nat)

/-- Body of `convertToWebP` (src/convert-to-webp.js lines 76-104): on
success the destination holds the produced bytes and the final progress
report shows both sizes; on error the catch block records the message and
the function itself writes nothing.  The second component is the
destination content this function is responsible for. -/
def convertToWebP (src : List Nat) (result : Except (List Char) (List Nat)) :
    WebpOutcome × Option (List Nat) :=
  match result with
  | Except.ok produced => (WebpOutcome.succeeded src.length produced.length, some produced)
  | Except.error msg => (WebpOutcome.encodingFailed msg, none)

/-- One webp task's recorded outcome as a function of its own inputs. -/
def webpTaskOutcome (env : List Char → WebpEnv) (f : List Char) : WebpOutcome :=
  (convertToWebP (env f).sourceBytes (env f).sharpResult).1

/-- What a batch driver returns: whether the "no files found" message was
printed, the recorded outcome of every task in submission order, and the
file writes performed (destination base name, bytes). -/
structure BatchReport (α : Type) where
  noFilesMessage : Bool
  outcomes : List α
  writes : List (List Char × List Nat)
deriving DecidableEq

/-- `processGIFs` of the parallel variant (src/unnamed/part_000 lines
269-299): filter the directory listing to `.gif` entries, return early
with only a message when none match, otherwise run one `optimizeGIF` task
per entry (through `pLimit(4)`) and record each task's outcome. -/
def processGIFs (files : List (List Char)) (env : List Char → TaskEnv) :
    BatchReport Outcome :=
  let gifFiles := gifFilter files
  if gifFiles.length = 0 then
    ⟨true, [], []⟩
  else
    ⟨false, gifFiles.map (taskOutcome env),
      gifFiles.filterMap (fun f =>
        ((optimizeGIF_close (env f).sourceBytes (env f).produced (env f).exitCode).2).map
          (fun b => (gifDest f, b)))⟩

/-- `processGIFs` of src/index.js (lines 118-143): the same discovery and
empty-directory path, but tasks run one after another in a `for` loop whose
body awaits each `optimizeGIF` inside `try/catch`, so every task is
attempted and recorded no matter how earlier tasks ended. -/
def processGIFs_seq (files : List (List Char)) (env : List Char → TaskEnv) :
    BatchReport Outcome :=
  let gifFiles := gifFilter files
  if gifFiles.length = 0 then
    ⟨true, [], []⟩
  else
    ⟨false, gifFiles.map (fun f =>
        (optimizeGIF_close_seq (env f).sourceBytes (env f).produced (env f).exitCode).1),
      gifFiles.filterMap (fun f =>
        ((optimizeGIF_close_seq (env f).sourceBytes (env f).produced (env f).exitCode).2).map
          (fun b => (gifDest f, b)))⟩

/-- `processImages` of src/convert-to-webp.js (lines 109-142). -/
def processImages (files : List (List Char)) (env : List Char → WebpEnv) :
    BatchReport WebpOutcome :=
  let imageFiles := rasterFilter files
  if imageFiles.length = 0 then
    ⟨true, [], []⟩
  else
    ⟨false, imageFiles.map (webpTaskOutcome env),
      imageFiles.filterMap (fun f =>
        ((convertToWebP (env f).sourceBytes (env f).sharpResult).2).map
          (fun b => (webpDest f, b)))⟩

/-- A task environment for witnesses: empty source, no produced file,
exit code 0. -/
def envUnit : List Char → TaskEnv := fun _ => ⟨[], none, 0⟩

/-- A webp task environment for witnesses: empty source, successful
conversion to an empty file. -/
def envUnitW : List Char → WebpEnv := fun _ => ⟨[], Except.ok []⟩

/-- C6: a directory listing with no matching entries makes either batch
driver print the "no files found" message, record no outcomes and perform
no file writes. -/
theorem c6_empty_batch (files : List (List Char)) (envG : List Char → TaskEnv)
    (envW : List Char → WebpEnv) :
    (gifFilter files = [] → processGIFs files envG = ⟨true, [], []⟩) ∧
    (rasterFilter files = [] → processImages files envW = ⟨true, [], []⟩) := by
  constructor
  · intro h
    simp [processGIFs, h]
  · intro h
    simp [processImages, h]

/-- Witness for C6: a listing holding only `readme.txt` matches neither
filter, and both drivers return the empty report. -/
theorem c6_empty_batch_w :
    processGIFs ["readme.txt".toList] envUnit = ⟨true, [], []⟩ ∧
    processImages ["readme.txt".toList] envUnitW = ⟨true, [], []⟩ :=
  ⟨(c6_empty_batch ["readme.txt".toList] envUnit envUnitW).1 (by decide),
   (c6_empty_batch ["readme.txt".toList] envUnit envUnitW).2 (by decide)⟩

/-- C9 counterexample: two distinct raster sources that differ only in
their extension are both matched by the discovery filter and are mapped to
the same destination name, so destination paths are not unique per task. -/
theorem c9_dest_collision_cex :
    webpDest "a.jpg".toList = webpDest "a.png".toList ∧
    "a.jpg".toList ≠ "a.png".toList ∧
    isRasterFile "a.jpg".toList = true ∧
    isRasterFile "a.png".toList = true := by
  refine ⟨by decide, by decide, by decide, by decide⟩

/-- C9 as amended: the destination is a deterministic function of the
source name on both paths; on the optimizer path it is the source's own
base name, so distinct tasks always get distinct destinations; on the
raster path two sources share a destination exactly when their
extension-stripped base names coincide, so sources differing only in their
extension collide. -/
theorem c9_dest_amended :
    (∀ f g : List Char, f ≠ g → gifDest f ≠ gifDest g) ∧
    (∀ f g : List Char, webpDest f = webpDest g ↔ stripExt f = stripExt g) := by
  constructor
  · intro f g hne
    simpa [gifDest] using hne
  · intro f g
    constructor
    · intro h
      exact List.append_cancel_right h
    · intro h
      simp [webpDest, h]

/-- Witness for the amended C9: two distinct gif names keep distinct
destinations. -/
theorem c9_dest_amended_w :
    gifDest "a.gif".toList ≠ gifDest "b.gif".toList :=
  c9_dest_amended.1 "a.gif".toList "b.gif".toList (by decide)

/-! ## Process exit status (src/convert-to-webp.js) -/

/-- The whole webp script run: the only `process.exit` call is the
startup check `process.exit(1)` when the input directory does not exist
(lines 17-20); once the batch runs, `convertToWebP` catches every
conversion error and `processImages` catches any batch error, so the node
process drains its event loop and exits 0 whatever the task outcomes. -/
def webpScriptRun (inputDirExists : Bool) (files : List (List Char))
    (env : List Char → WebpEnv) : Nat × Option (BatchReport WebpOutcome) :=
  if inputDirExists then (0, some (processImages files env)) else (1, none)

/-- An environment whose single task fails inside sharp. -/
def envSharpFails : List Char → WebpEnv := fun _ => ⟨[0], Except.error ['e']⟩

/-- C5 counterexample: a run whose one task fails still exits with status
0, so the exit status does not reflect task failures. -/
theorem c5_exit_status_cex :
    (webpScriptRun true ["a.jpg".toList] envSharpFails).1 = 0 ∧
    (webpScriptRun true ["a.jpg".toList] envSharpFails).2 =
      some ⟨false, [WebpOutcome.encodingFailed ['e']], []⟩ := by
  refine ⟨rfl, by decide⟩

/-- C5 as amended: the process exit status is 1 exactly when the input
directory is missing (a fatal pre-batch check); whenever the batch runs at
all the exit status is 0, regardless of how many tasks failed. -/
theorem c5_exit_status_amended :
    ∀ (b : Bool) (files : List (List Char)) (env : List Char → WebpEnv),
      (webpScriptRun b files env).1 = (if b then 0 else 1) ∧
      ((webpScriptRun b files env).1 ≠ 0 ↔ b = false) := by
  intro b files env
  cases b <;> simp [webpScriptRun]

/-! ## The gifsicle availability precheck -/

/-- What spawning `gifsicle --version` can be observed to do: fail to
launch at all (the `error` event, e.g. the binary is not on the search
path), or close with an exit code. -/
inductive SpawnResult where
  | launchError
  | closed (code : Int)
deriving DecidableEq

/-- The close handler of the precheck (src/index.js lines 152-156,
src/unnamed/part_000 lines 308-312): `processGIFs()` is called only when a
close event delivered exit code 0. -/
def checkGifsicle_startsBatch (r : SpawnResult) : Bool :=
  match r with
  | SpawnResult.closed code => code == 0
  | SpawnResult.launchError => false

/-- The error handler of the precheck: the fatal "gifsicle is not
installed" message is printed exactly when the launch failed. -/
def checkGifsicle_fatalMessage (r : SpawnResult) : Bool :=
  match r with
  | SpawnResult.launchError => true
  | SpawnResult.closed _ => false

/-- The whole gif script run gated by the precheck: the batch (and with it
every read of the input directory and every conversion) happens only inside
the `code === 0` branch. -/
def gifScriptRun (r : SpawnResult) (files : List (List Char))
    (env : List Char → TaskEnv) : Option (BatchReport Outcome) :=
  if checkGifsicle_startsBatch r then some (processGIFs files env) else none

/-- C7: the batch runs exactly when the precheck's version invocation
closed with exit code 0; when the tool cannot be launched at all, the run
performs no batch work and the fatal startup message is reported. -/
theorem c7_precheck_gates_batch :
    ∀ (r : SpawnResult) (files : List (List Char)) (env : List Char → TaskEnv),
      ((gifScriptRun r files env).isSome = true ↔ r = SpawnResult.closed 0) ∧
      (r = SpawnResult.launchError →
        gifScriptRun r files env = none ∧ checkGifsicle_fatalMessage r = true) := by
  intro r files env
  cases r with
  | launchError =>
      refine ⟨?_, fun _ => ⟨rfl, rfl⟩⟩
      simp [gifScriptRun, checkGifsicle_startsBatch]
  | closed code =>
      constructor
      · by_cases hc : code = 0 <;>
          simp [gifScriptRun, checkGifsicle_startsBatch, hc]
      · intro h
        exact absurd h (by simp)

/-- Witness for C7 at the concrete failing launch: no batch report is
produced and the fatal message is reported. -/
theorem c7_precheck_gates_batch_w :
    gifScriptRun SpawnResult.launchError [] envUnit = none ∧
    checkGifsicle_fatalMessage SpawnResult.launchError = true :=
  (c7_precheck_gates_batch SpawnResult.launchError [] envUnit).2 rfl

/-! ## The size formatter

`formatFileSize` divides a byte count repeatedly by 1024 and renders one
decimal with `Number.prototype.toFixed(1)`.  Dividing an IEEE double by
1024 only shifts its exponent and never rounds, so the numbers the script
computes are the exact rationals modelled here. -/

/-- One-decimal rendering of a nonnegative rational, as `toFixed(1)`
renders the exact values that arise here: round half up at the tenths
place, then print integer part, a dot and the tenths digit. -/
def toFixed1 (q : ℚ) : String :=
  let t : Nat := (Int.floor (q * 10 + 1 / 2)).toNat
  toString (t / 10) ++ "." ++ toString (t % 10)

/-- `formatFileSize` (src/index.js lines 21-29, src/convert-to-webp.js
lines 33-41, src/unnamed/part_000 lines 162-170). -/
def formatFileSize (bytes : Nat) : String :=
  if bytes < 1024 then toString bytes ++ " B"
  else
    let kb : ℚ := (bytes : ℚ) / 1024
    if kb < 1024 then toFixed1 kb ++ " KB"
    else
      let mb : ℚ := kb / 1024
      if mb < 1024 then toFixed1 mb ++ " MB"
      else
        let gb : ℚ := mb / 1024
        toFixed1 gb ++ " GB"

/-- The size-formatting rule in the words of the claim: bytes with unit B
below 1024, else kilobytes with one decimal while bytes/1024 < 1024, else
megabytes with one decimal while bytes/1024² < 1024, else gigabytes with
one decimal. -/
def formatFileSize_claim (bytes : Nat) : String :=
  if bytes < 1024 then toString bytes ++ " B"
  else if (bytes : ℚ) / 1024 < 1024 then toFixed1 ((bytes : ℚ) / 1024) ++ " KB"
  else if (bytes : ℚ) / 1024 ^ 2 < 1024 then toFixed1 ((bytes : ℚ) / 1024 ^ 2) ++ " MB"
  else toFixed1 ((bytes : ℚ) / 1024 ^ 3) ++ " GB"

/-- C8: the script's size formatter agrees with the claim's rule at every
byte count. -/
theorem c8_formatFileSize_correct (bytes : Nat) :
    formatFileSize bytes = formatFileSize_claim bytes := by
  have h2 : (bytes : ℚ) / 1024 / 1024 = (bytes : ℚ) / 1024 ^ 2 := by
    rw [div_div]; norm_num
  have h3 : (bytes : ℚ) / 1024 ^ 2 / 1024 = (bytes : ℚ) / 1024 ^ 3 := by
    rw [div_div]; norm_num
  simp only [formatFileSize, formatFileSize_claim, h2, h3]

/-! ## The batch barrier

`processGIFs` (parallel variant) and `processImages` both gather one
promise per task and `await Promise.all(promises)` inside `try/catch`.
The ECMAScript `Promise.all` combinator settles as soon as one of its
promises rejects (and only otherwise once all have resolved), which is
what `promiseAllTime` models; the timer at which every outcome is in is
`allCompleteTime`. -/

/-- One task's settlement as seen by the combinator: the instant it
settles and whether it rejected. -/
structure TimedOutcome where
  time : Nat
  failed : Bool
deriving DecidableEq

/-- The instant at which every task's outcome is known. -/
def allCompleteTime (ts : List TimedOutcome) : Nat :=
  (ts.map (fun t => t.time)).foldr Nat.max 0

/-- The instant at which `await Promise.all` returns: the first rejection
when there is one, the last resolution otherwise. -/
def promiseAllTime (ts : List TimedOutcome) : Nat :=
  match (ts.filter (fun t => t.failed)).map (fun t => t.time) with
  | [] => allCompleteTime ts
  | t :: rest => rest.foldr Nat.min t

/-- C4 counterexample: with one task rejecting at instant 1 and a sibling
resolving at instant 2, the batch's `await Promise.all` returns at
instant 1, before the sibling's outcome is in — the barrier is
first-failure, not all-complete. -/
theorem c4_barrier_cex :
    promiseAllTime [⟨1, true⟩, ⟨2, false⟩] = 1 ∧
    allCompleteTime [⟨1, true⟩, ⟨2, false⟩] = 2 ∧
    promiseAllTime [⟨1, true⟩, ⟨2, false⟩] <
      allCompleteTime [⟨1, true⟩, ⟨2, false⟩] := by
  refine ⟨rfl, rfl, by decide⟩

/-- C4 as amended: the `Promise.all` barrier is all-complete exactly on
failure-free runs; independently of the barrier, every submitted task is
recorded exactly once — both batch drivers return one outcome per
discovered file, each a function of that task's own inputs only, so one
failing task never changes a sibling's outcome. -/
theorem c4_barrier_amended :
    (∀ ts : List TimedOutcome, (∀ t ∈ ts, t.failed = false) →
      promiseAllTime ts = allCompleteTime ts) ∧
    (∀ (files : List (List Char)) (env : List Char → TaskEnv),
      (processGIFs files env).outcomes.length = (gifFilter files).length) ∧
    (∀ (files : List (List Char)) (env : List Char → TaskEnv) (i : Nat),
      (processGIFs files env).outcomes[i]? =
        ((gifFilter files)[i]?).map (taskOutcome env)) ∧
    (∀ (files : List (List Char)) (env : List Char → TaskEnv),
      (processGIFs_seq files env).outcomes.length = (gifFilter files).length) := by
  refine ⟨?_, ?_, ?_, ?_⟩
  · intro ts h
    have hf : ts.filter (fun t => t.failed) = [] := by
      simp only [List.filter_eq_nil_iff]
      intro t ht
      simp [h t ht]
    simp [promiseAllTime, hf]
  · intro files env
    by_cases h : (gifFilter files).length = 0 <;>
      simp [processGIFs, h]
  · intro files env i
    by_cases h : (gifFilter files).length = 0
    · have : gifFilter files = [] := List.length_eq_zero.mp h
      simp [processGIFs, h, this]
    · simp [processGIFs, h]
  · intro files env
    by_cases h : (gifFilter files).length = 0 <;>
      simp [processGIFs_seq, h]

/-! ## The concurrency limiter

Modelled from the spec: the `ConcurrencyLimiter` contract (spec section
4.2) implemented by the external `p-limit` package, which is a dependency
and not one of the repository's source files.  `pLimit(n)` starts a
submitted work unit immediately while fewer than `n` are in flight and
otherwise queues it; queued units start in submission order as slots
free.  A run is a trace of start/finish events; `limValid n s r tr`
checks the trace discipline from a state where `s` units have already
started and the units in `r` are in flight: a unit may start only when it
is the next one in submission order and a slot is free, and only
in-flight units finish. -/

/-- One scheduling event: work unit `i` starts, or finishes. -/
inductive LimEvent where
  | start (i : Nat)
  | finish (i : Nat)
deriving DecidableEq

/-- Trace discipline of the limiter with pool size `n` (see above). -/
def limValid (n : Nat) : Nat → List Nat → List LimEvent → Bool
  | _, _, [] => true
  | nextStart, running, LimEvent.start i :: rest =>
      decide (i = nextStart) && decide (running.length < n) &&
        limValid n (nextStart + 1) (i :: running) rest
  | nextStart, running, LimEvent.finish i :: rest =>
      running.contains i && limValid n nextStart (running.erase i) rest

/-- The in-flight units after a trace, from initial in-flight list `r`. -/
def runningAfter : List Nat → List LimEvent → List Nat
  | r, [] => r
  | r, LimEvent.start i :: rest => runningAfter (i :: r) rest
  | r, LimEvent.finish i :: rest => runningAfter (r.erase i) rest

/-- The units a trace starts, in the order it starts them. -/
def startsOf : List LimEvent → List Nat
  | [] => []
  | LimEvent.start i :: rest => i :: startsOf rest
  | LimEvent.finish _ :: rest => startsOf rest

/-- Bound invariant, in the general state form needed for induction. -/
theorem limValid_bound (n : Nat) :
    ∀ (tr : List LimEvent) (s : Nat) (r : List Nat),
      limValid n s r tr = true → r.length ≤ n →
      ∀ k, (runningAfter r (tr.take k)).length ≤ n := by
  intro tr
  induction tr with
  | nil =>
      intro s r _ hr k
      simpa [runningAfter] using hr
  | cons e rest ih =>
      intro s r hv hr k
      cases k with
      | zero => simpa [runningAfter] using hr
      | succ k =>
          cases e with
          | start i =>
              simp only [limValid, Bool.and_eq_true, decide_eq_true_eq] at hv
              obtain ⟨⟨his, hlt⟩, hv'⟩ := hv
              have hlen : (i :: r).length ≤ n := by
                simpa [Nat.succ_le_iff] using hlt
              simpa [runningAfter] using ih (s + 1) (i :: r) hv' hlen k
          | finish i =>
              simp only [limValid, Bool.and_eq_true] at hv
              obtain ⟨hmem, hv'⟩ := hv
              have hlen : (r.erase i).length ≤ n :=
                le_trans (List.erase_sublist i r).length_le hr
              simpa [runningAfter] using ih s (r.erase i) hv' hlen k

/-- Start-order invariant: a valid trace starts units in submission
order, consecutively from the state's next index. -/
theorem limValid_starts (n : Nat) :
    ∀ (tr : List LimEvent) (s : Nat) (r : List Nat),
      limValid n s r tr = true →
      startsOf tr = List.range' s (startsOf tr).length := by
  intro tr
  induction tr with
  | nil => intro s r _; rfl
  | cons e rest ih =>
      intro s r hv
      cases e with
      | start i =>
          simp only [limValid, Bool.and_eq_true, decide_eq_true_eq] at hv
          obtain ⟨⟨his, _⟩, hv'⟩ := hv
          have h' := ih (s + 1) (i :: r) hv'
          simp only [startsOf, List.length_cons, List.range'_succ, his]
          exact congrArg (s :: ·) (his ▸ h')
      | finish i =>
          simp only [limValid, Bool.and_eq_true] at hv
          exact ih s (r.erase i) hv.2

/-- C3: in every valid schedule of the limiter with pool size `n`, at no
instant are more than `n` work units in flight, and units start exactly
in submission order (the unit started `k`-th is the `k`-th submitted). -/
theorem c3_concurrency_bound (n : Nat) (tr : List LimEvent)
    (hv : limValid n 0 [] tr = true) :
    (∀ k, (runningAfter [] (tr.take k)).length ≤ n) ∧
    startsOf tr = List.range' 0 (startsOf tr).length :=
  ⟨limValid_bound n tr 0 [] hv (Nat.zero_le n), limValid_starts n tr 0 [] hv⟩

/-- A sample schedule for the default pool size 4: five units, where the
fifth can only start once a slot frees. -/
def sampleTrace : List LimEvent :=
  [LimEvent.start 0, LimEvent.start 1, LimEvent.start 2, LimEvent.start 3,
   LimEvent.finish 1, LimEvent.start 4, LimEvent.finish 0,
   LimEvent.finish 2, LimEvent.finish 3, LimEvent.finish 4]

/-- Witness for C3 on the sample schedule with pool size 4. -/
theorem c3_concurrency_bound_w :
    (runningAfter [] (sampleTrace.take 6)).length ≤ 4 ∧
    startsOf sampleTrace = List.range' 0 (startsOf sampleTrace).length :=
  ⟨(c3_concurrency_bound 4 sampleTrace (by decide)).1 6,
   (c3_concurrency_bound 4 sampleTrace (by decide)).2⟩

/-! ## Progress reporting

Every task runs a 200ms timer that adds `Math.random() * 10` (a
nonnegative quantity below 10) to its progress counter and displays
`Math.min(progress, 100)`.  What happens at the end of the task differs
per variant: the src/index.js close handler always displays 100 before
settling; the parallel variant's close handler displays 100 only on its
non-fallback branch; `convertToWebP` displays 100 only on its success
path.  A task's report sequence is modelled as the list of displayed
percent values, given the timer's random increments. -/

/-- The percent values the timer displays, starting from counter `p`:
each tick adds its increment and shows the counter capped at 100. -/
def tickPercents (p : ℚ) (rs : List ℚ) : List ℚ :=
  match rs with
  | [] => []
  | r :: rest => min (p + r) 100 :: tickPercents (p + r) rest

/-- Percent values a task of the parallel variant reports: the close
handler displays 100 only on the non-fallback branch (the fallback branch
prints its skip message and settles without a final display). -/
def optimizeGIF_reports (src : List Nat) (produced : Option (List Nat))
    (rs : List ℚ) : List ℚ :=
  if src.length ≤ observedOptimizedSize src produced then tickPercents 0 rs
  else tickPercents 0 rs ++ [100]

/-- Percent values a task of src/index.js reports: the close handler
displays 100 before resolving or rejecting, on every path. -/
def optimizeGIF_seq_reports (rs : List ℚ) : List ℚ :=
  tickPercents 0 rs ++ [100]

/-- Percent values a webp task reports: 100 after a successful
conversion, nothing more after a caught error. -/
def convertToWebP_reports (result : Except (List Char) (List Nat))
    (rs : List ℚ) : List ℚ :=
  match result with
  | Except.ok _ => tickPercents 0 rs ++ [100]
  | Except.error _ => tickPercents 0 rs

/-- The size shown next to the percent: the destination's current size
when the destination exists, the original size otherwise. -/
def sampledSize (destExists : Bool) (destSize originalSize : Nat) : Nat :=
  if destExists then destSize else originalSize

/-- Every displayed tick value is capped at 100. -/
theorem tickPercents_le_100 (rs : List ℚ) :
    ∀ (p : ℚ), ∀ x ∈ tickPercents p rs, x ≤ 100 := by
  induction rs with
  | nil => intro p x hx; simp [tickPercents] at hx
  | cons r rest ih =>
      intro p x hx
      simp only [tickPercents, List.mem_cons] at hx
      rcases hx with rfl | hx
      · exact min_le_right _ _
      · exact ih (p + r) x hx

/-- With nonnegative increments the displayed values never decrease,
starting from any capped counter value. -/
theorem tickPercents_chain (rs : List ℚ) :
    ∀ p : ℚ, (∀ r ∈ rs, 0 ≤ r) →
      List.Chain (· ≤ ·) (min p 100) (tickPercents p rs) := by
  induction rs with
  | nil => intro p _; exact List.Chain.nil
  | cons r rest ih =>
      intro p h
      refine List.Chain.cons ?_ (ih (p + r) (fun x hx => h x (by simp [hx])))
      exact min_le_min (le_add_of_nonneg_right (h r (by simp))) le_rfl

/-- A chain from some head is in particular a chain along the list. -/
theorem chain'_of_chain {a : ℚ} {l : List ℚ}
    (h : List.Chain (· ≤ ·) a l) : List.Chain' (· ≤ ·) l := by
  cases l with
  | nil => exact List.chain'_nil
  | cons y t => exact (List.chain_cons.mp h).2

/-- Appending the final 100 display keeps the sequence nondecreasing,
since every earlier value is capped at 100. -/
theorem chain'_append_100 (l : List ℚ) (hl : List.Chain' (· ≤ ·) l)
    (hb : ∀ x ∈ l, x ≤ 100) : List.Chain' (· ≤ ·) (l ++ [100]) := by
  refine List.Chain'.append hl (List.chain'_singleton 100) ?_
  intro x hx y hy
  simp only [List.head?_cons, Option.mem_def, Option.some.injEq] at hy
  subst hy
  exact hb x (List.mem_of_mem_getLast? hx)

/-- C10 counterexample: a task of the parallel variant that completes
successfully through the fallback branch (1-byte source, 2-byte produced
file) with a single timer tick of 5 reports the sequence `[5]` and never
reports 100, although its outcome is SucceededViaFallback — the final
report on completion is not 100. -/
theorem c10_final_report_cex :
    (optimizeGIF_close [0] (some [0, 0]) 0).1 = Outcome.succeededViaFallback 1 ∧
    optimizeGIF_reports [0] (some [0, 0]) [5] = [5] ∧
    (5 : ℚ) ≠ 100 := by
  refine ⟨rfl, ?_, by norm_num⟩
  simp only [optimizeGIF_reports, observedOptimizedSize, tickPercents]
  norm_num

/-- C10 as amended: for every variant the report sequence is
nondecreasing and capped at 100 (given the timer's nonnegative
increments), and while the destination file does not exist the sampled
size shown equals the original size; the final report is exactly 100 on
every completion of the src/index.js variant, on the webp success path,
and on the parallel variant's non-fallback branch — but the parallel
variant's fallback branch and the webp error path end without a final 100
report. -/
theorem c10_progress_amended :
    (∀ (src : List Nat) (produced : Option (List Nat)) (rs : List ℚ),
      (∀ r ∈ rs, 0 ≤ r) →
      List.Chain' (· ≤ ·) (optimizeGIF_reports src produced rs) ∧
      ∀ x ∈ optimizeGIF_reports src produced rs, x ≤ 100) ∧
    (∀ rs : List ℚ, (∀ r ∈ rs, 0 ≤ r) →
      List.Chain' (· ≤ ·) (optimizeGIF_seq_reports rs) ∧
      ∀ x ∈ optimizeGIF_seq_reports rs, x ≤ 100) ∧
    (∀ (result : Except (List Char) (List Nat)) (rs : List ℚ),
      (∀ r ∈ rs, 0 ≤ r) →
      List.Chain' (· ≤ ·) (convertToWebP_reports result rs) ∧
      ∀ x ∈ convertToWebP_reports result rs, x ≤ 100) ∧
    (∀ rs : List ℚ, (optimizeGIF_seq_reports rs).getLast? = some 100) ∧
    (∀ (b : List Nat) (rs : List ℚ),
      (convertToWebP_reports (Except.ok b) rs).getLast? = some 100) ∧
    (∀ (src : List Nat) (produced : Option (List Nat)) (rs : List ℚ),
      observedOptimizedSize src produced < src.length →
      (optimizeGIF_reports src produced rs).getLast? = some 100) ∧
    (∀ destSize originalSize : Nat,
      sampledSize false destSize originalSize = originalSize) := by
  have hticks : ∀ rs : List ℚ, (∀ r ∈ rs, 0 ≤ r) →
      List.Chain' (· ≤ ·) (tickPercents 0 rs) :=
    fun rs h => chain'_of_chain (tickPercents_chain rs 0 h)
  have hfull : ∀ rs : List ℚ, (∀ r ∈ rs, 0 ≤ r) →
      List.Chain' (· ≤ ·) (tickPercents 0 rs ++ [100]) :=
    fun rs h => chain'_append_100 _ (hticks rs h) (tickPercents_le_100 rs 0)
  have hballt : ∀ rs : List ℚ, ∀ x ∈ tickPercents 0 rs ++ [100], x ≤ 100 := by
    intro rs x hx
    rcases List.mem_append.mp hx with hx | hx
    · exact tickPercents_le_100 rs 0 x hx
    · simp only [List.mem_singleton] at hx
      exact le_of_eq hx
  refine ⟨?_, ?_, ?_, ?_, ?_, ?_, ?_⟩
  · intro src produced rs h
    by_cases hs : src.length ≤ observedOptimizedSize src produced
    · exact ⟨by simpa [optimizeGIF_reports, hs] using hticks rs h,
        by simpa [optimizeGIF_reports, hs] using fun x => tickPercents_le_100 rs 0 x⟩
    · exact ⟨by simpa [optimizeGIF_reports, hs] using hfull rs h,
        by simpa [optimizeGIF_reports, hs] using fun x => hballt rs x⟩
  · intro rs h
    exact ⟨hfull rs h, hballt rs⟩
  · intro result rs h
    cases result with
    | ok b => exact ⟨hfull rs h, by simpa [convertToWebP_reports] using hballt rs⟩
    | error m =>
        exact ⟨hticks rs h,
          by simpa [convertToWebP_reports] using fun x => tickPercents_le_100 rs 0 x⟩
  · intro rs
    exact List.getLast?_concat _
  · intro b rs
    exact List.getLast?_concat _
  · intro src produced rs hlt
    have hs : ¬ src.length ≤ observedOptimizedSize src produced := not_le.mpr hlt
    simp only [optimizeGIF_reports, hs, if_false]
    exact List.getLast?_concat _
  · intro destSize originalSize
    rfl

end Giftimize
